import Mathlib

/-!
Shallow embedding of the order-and-inventory backend (Django app `main_app`).

Conventions of the embedding:
* `DecimalField` values are modelled as exact rationals (`ℚ`).
* `IntegerField` values are modelled as `Int` so that the non-negativity of
  stock is a real property, not a typing artefact.
* Database rows are records in lists; a request handler is a function from a
  database state (and its inputs) to a result together with the database
  state after the handler ran.  Django runs in autocommit mode here (no
  `transaction.atomic` anywhere in the app), so an exception raised in the
  middle of a handler keeps every row already written: the "state after" of
  a failing handler reflects exactly the writes that had already happened.
* Python strings are modelled as `String`, with character-level operations
  (slicing, `upper()`) expressed through `List Char`.
-/

namespace OIMS

/-- A `Product` row (src/main_app/models.py, class `Product`).  Fields not
used by any modelled operation (description, image url, timestamps, the
category foreign key) are omitted. -/
structure Product where
  id : Nat
  user_id : Nat
  name : String
  price : ℚ
  stock_quantity : Int
  sku : String
  is_active : Bool
  deriving Repr, DecidableEq

/-- A `ShippingZone` row (models.py, class `ShippingZone`).
`free_shipping_threshold` is nullable (`null=True`). -/
structure ShippingZone where
  id : Nat
  name : String
  country : String
  base_rate : ℚ
  free_shipping_threshold : Option ℚ
  deriving Repr, DecidableEq

/-- An `Order` row (models.py, class `Order`).  `status` and
`payment_status` hold the literal strings of the model's choice lists. -/
structure Order where
  id : Nat
  user_id : Nat
  order_number : String
  total_amount : ℚ
  status : String
  shipping_address : String
  notes : Option String
  payment_status : String
  payment_intent_id : Option String
  shipping_zone : Option Nat
  shipping_cost : ℚ
  deriving Repr, DecidableEq

/-- An `OrderItem` row (models.py, class `OrderItem`). -/
structure OrderItem where
  id : Nat
  order_id : Nat
  product_id : Nat
  quantity : Int
  unit_price : ℚ
  subtotal : ℚ
  deriving Repr, DecidableEq

/-- The relational state the modelled handlers read and write. -/
structure DB where
  products : List Product
  orders : List Order
  order_items : List OrderItem
  deriving Repr, DecidableEq

/-- `Product.objects.get(id=pid)` / foreign-key dereference. -/
def findProduct (db : DB) (pid : Nat) : Option Product :=
  db.products.find? (fun p => p.id == pid)

/-- `Order.objects.get(id=oid)` over all orders. -/
def findOrder (db : DB) (oid : Nat) : Option Order :=
  db.orders.find? (fun o => o.id == oid)

/-- `product.save()` on an existing row: writes the row with this id. -/
def updProduct (db : DB) (p : Product) : DB :=
  { db with products := db.products.map (fun q => if q.id == p.id then p else q) }

/-- `order.save()` on an existing row whose `order_number` is unchanged
(the unique constraint cannot fire). -/
def updOrder (db : DB) (o : Order) : DB :=
  { db with orders := db.orders.map (fun q => if q.id == o.id then o else q) }

/-- `order.order_items.all()`: the child rows of one order. -/
def itemsOf (db : DB) (oid : Nat) : List OrderItem :=
  db.order_items.filter (fun it => it.order_id == oid)

/-- `Order.calculate_total` (models.py 193-198): sum the child subtotals,
store the sum as `total_amount`, persist. -/
def calculate_total (db : DB) (oid : Nat) : DB :=
  let total := ((itemsOf db oid).map (·.subtotal)).sum
  { db with orders :=
      db.orders.map (fun o => if o.id == oid then { o with total_amount := total } else o) }

/-- `OrderItem.save` (models.py 239-244): recompute `subtotal`, persist the
row (update when the primary key exists, insert otherwise), then call
`self.order.calculate_total()`. -/
def orderItemSave (db : DB) (it : OrderItem) : DB :=
  let it' := { it with subtotal := (it.quantity : ℚ) * it.unit_price }
  let items' :=
    if db.order_items.any (fun x => x.id == it'.id)
    then db.order_items.map (fun x => if x.id == it'.id then it' else x)
    else db.order_items ++ [it']
  calculate_total { db with order_items := items' } it'.order_id

/-- `OrderItem.delete` (models.py 246-250): remove the row, then recompute
the parent order's total. -/
def orderItemDelete (db : DB) (itemId : Nat) : DB :=
  match db.order_items.find? (fun x => x.id == itemId) with
  | none => db
  | some it =>
      calculate_total
        { db with order_items := db.order_items.filter (fun x => !(x.id == itemId)) }
        it.order_id

/-- The characters `uuid.uuid4().hex` can produce: the sixteen lowercase
hex digits, `0`-`9` (codes 48-57) then `a`-`f` (codes 97-102). -/
def hexDigitsLower : List Char :=
  (List.range 16).map (fun n => if n < 10 then Char.ofNat (48 + n) else Char.ofNat (87 + n))

/-- The characters allowed after `ORD-` by the documented shape: `0`-`9`
then the uppercase `A`-`F` (codes 65-70). -/
def hexDigitsUpper : List Char :=
  (List.range 16).map (fun n => if n < 10 then Char.ofNat (48 + n) else Char.ofNat (55 + n))

/-- `s` is a possible value of `uuid.uuid4().hex`: 32 lowercase hex digits. -/
def isUuidHex (s : String) : Bool :=
  s.toList.length == 32 && s.toList.all (fun c => hexDigitsLower.contains c)

/-- `s` matches the documented `ORD-XXXXXXXX` shape: the prefix `ORD-`
followed by exactly 8 uppercase hex digits. -/
def isOrderNumberShape (s : String) : Bool :=
  s.toList.take 4 == ['O', 'R', 'D', '-']
    && (s.toList.drop 4).length == 8
    && (s.toList.drop 4).all (fun c => hexDigitsUpper.contains c)

/-- `f"ORD-{uuid.uuid4().hex[:8].upper()}"` (models.py 190), with the fresh
`uuid4().hex` string passed in explicitly. -/
def generate_order_number (uuidHex : String) : String :=
  "ORD-" ++ String.mk ((uuidHex.toList.take 8).map Char.toUpper)

/-- The `super().save(*args, **kwargs)` write of an `Order` row, together
with the database's unique constraint on `order_number`: a write whose
`order_number` duplicates a different row's raises `IntegrityError`
(modelled as `Except.error ()`), and nothing in the code retries it;
otherwise the row is updated in place (existing primary key) or
inserted. -/
def superSave (db : DB) (o' : Order) : Except Unit (Order × DB) :=
  if db.orders.any (fun e => e.order_number == o'.order_number && e.id != o'.id) then
    Except.error ()
  else if db.orders.any (fun e => e.id == o'.id) then
    Except.ok (o', { db with orders := db.orders.map (fun e => if e.id == o'.id then o' else e) })
  else
    Except.ok (o', { db with orders := db.orders ++ [o'] })

/-- `Order.save` (models.py 186-191): assign a generated order number on
first save only (`if not self.order_number`), then perform the
`super().save()` write. -/
def orderSave (db : DB) (o : Order) (uuidHex : String) : Except Unit (Order × DB) :=
  superSave db
    (if o.order_number == "" then { o with order_number := generate_order_number uuidHex } else o)

/-- One entry of the `order_items` request list accepted by
`OrderCreateSerializer` (serializers.py 86-89): a dict with a `product_id`
and a `quantity`. -/
structure ItemReq where
  product_id : Nat
  quantity : Int
  deriving Repr, DecidableEq

/-- The writable fields of `OrderCreateSerializer` (serializers.py 91-93). -/
def orderCreateSerializerFields : List String :=
  ["shipping_address", "notes", "order_items"]

/-- `OrderCreateSerializer.validate_order_items` (serializers.py 95-106):
the list is non-empty and every entry's quantity is at least 1 (the
presence of the `product_id` / `quantity` keys is guaranteed by the typed
`ItemReq`). -/
def validOrderItems (items : List ItemReq) : Bool :=
  !items.isEmpty && items.all (fun it => 1 ≤ it.quantity)

/-- The failure modes of order placement.  `productDoesNotExist` is the
`Product.DoesNotExist` exception escaping `Product.objects.get`;
`insufficientStock` is the `ValidationError` of serializers.py 121-123,
carrying the product name and the available quantity. -/
inductive PlaceError
  | validationError
  | productDoesNotExist (pid : Nat)
  | insufficientStock (productName : String) (available : Int)
  | integrityError
  deriving Repr, DecidableEq

/-- `order.delete()` with the `on_delete=CASCADE` of `OrderItem.order`:
remove the order row and all of its item rows.  (A cascade delete does not
run the `OrderItem.delete` method, so no total recomputation happens.) -/
def deleteOrderCascade (db : DB) (oid : Nat) : DB :=
  { db with orders := db.orders.filter (fun o => !(o.id == oid)),
            order_items := db.order_items.filter (fun it => !(it.order_id == oid)) }

/-- Autoincrement primary key for a new `OrderItem` row. -/
def nextItemId (db : DB) : Nat := (db.order_items.map (·.id)).foldr max 0 + 1

/-- Autoincrement primary key for a new `Order` row. -/
def nextOrderId (db : DB) : Nat := (db.orders.map (·.id)).foldr max 0 + 1

/-- The item loop of `OrderCreateSerializer.create` (serializers.py
116-133), for the order with id `oid`.  Per requested item, in input
order: fetch the product (a missing product raises, leaving all rows
written so far in place); if available stock is below the requested
quantity, delete the shell order (cascading to its items) and fail;
otherwise create the `OrderItem` with the unit price snapshotted from the
product and decrement the product's stock. -/
def createItems (oid : Nat) : DB → List ItemReq → Except PlaceError Unit × DB
  | db, [] => (Except.ok (), db)
  | db, it :: rest =>
    match findProduct db it.product_id with
    | none => (Except.error (PlaceError.productDoesNotExist it.product_id), db)
    | some p =>
      if p.stock_quantity < it.quantity then
        (Except.error (PlaceError.insufficientStock p.name p.stock_quantity),
          deleteOrderCascade db oid)
      else
        let db1 := orderItemSave db
          { id := nextItemId db, order_id := oid, product_id := p.id,
            quantity := it.quantity, unit_price := p.price, subtotal := 0 }
        let db2 := updProduct db1 { p with stock_quantity := p.stock_quantity - it.quantity }
        createItems oid db2 rest

/-- The fresh `Order` row built by `Order.objects.create(user=...,
shipping_address=..., notes=...)` (serializers.py 111-114): every other
column takes its model default. -/
def newOrderShell (oid uid : Nat) (addr : String) (notes : Option String) : Order :=
  { id := oid, user_id := uid, order_number := "", total_amount := 0,
    status := "pending", shipping_address := addr, notes := notes,
    payment_status := "pending", payment_intent_id := none,
    shipping_zone := none, shipping_cost := 0 }

/-- The order placement request: `validate_order_items` followed by
`OrderCreateSerializer.create` (serializers.py 95-137).  `uuidHex` is the
value `uuid.uuid4().hex` produced during the shell order's first save.
The returned database is the state after the handler, whether it
succeeded or failed. -/
def placeOrder (db : DB) (userId : Nat) (addr : String) (notes : Option String)
    (items : List ItemReq) (uuidHex : String) : Except PlaceError Order × DB :=
  if !(validOrderItems items) then (Except.error PlaceError.validationError, db)
  else
    match orderSave db (newOrderShell (nextOrderId db) userId addr notes) uuidHex with
    | Except.error () => (Except.error PlaceError.integrityError, db)
    | Except.ok (o, db1) =>
      match createItems o.id db1 items with
      | (Except.error e, db2) => (Except.error e, db2)
      | (Except.ok (), db2) =>
        let total := ((itemsOf db2 o.id).map (·.subtotal)).sum
        (Except.ok { o with total_amount := total }, calculate_total db2 o.id)

/-- Failure modes of `OrderViewSet.cancel`. -/
inductive CancelError
  | notFound
  | forbidden
  | invalidState
  deriving Repr, DecidableEq

/-- The stock-restoration loop of `OrderViewSet.cancel` (views.py
156-159): for each item, add its quantity back onto its product's stock.
(`OrderItem.product` is `on_delete=PROTECT`, so the referenced product is
always present; the `none` arm is a dead guard.) -/
def restoreStock : DB → List OrderItem → DB
  | db, [] => db
  | db, it :: rest =>
    match findProduct db it.product_id with
    | none => restoreStock db rest
    | some p =>
        restoreStock (updProduct db { p with stock_quantity := p.stock_quantity + it.quantity }) rest

/-- `OrderViewSet.cancel` (views.py 139-165).  `order = self.get_object()`
(line 142) resolves the pk against `get_queryset` (views.py 106-119),
which spans all orders for staff but only the requester's own orders
otherwise — so a non-owner non-staff actor gets a 404 here.  The explicit
permission check of views.py 144-148 follows (it can no longer fire, but
it is in the handler and is modelled as written), then the
`can_be_cancelled` state check (models.py 200-203: status must be
`pending`), then stock restoration and the status flip to `cancelled`. -/
def cancelOrder (db : DB) (oid : Nat) (actorId : Nat) (actorStaff : Bool) :
    Except CancelError Order × DB :=
  match db.orders.find? (fun o => o.id == oid && (actorStaff || o.user_id == actorId)) with
  | none => (Except.error CancelError.notFound, db)
  | some o =>
    if o.user_id != actorId && !actorStaff then (Except.error CancelError.forbidden, db)
    else if !(o.status == "pending") then (Except.error CancelError.invalidState, db)
    else
      let db1 := restoreStock db (itemsOf db oid)
      let o' := { o with status := "cancelled" }
      (Except.ok o', updOrder db1 o')

/-- Failure modes of `ProductViewSet.update_stock`. -/
inductive StockError
  | notFound
  | forbidden
  | required
  | negative
  deriving Repr, DecidableEq

/-- `ProductViewSet.update_stock` (views.py 82-100).  `get_object` resolves
against the viewset queryset, which is filtered to `is_active=True`
(views.py 50); the `IsOwnerOrAdmin` object permission (permissions.py)
requires the actor to own the product or be staff; a missing
`stock_quantity` and a negative one are each rejected with no write. -/
def update_stock (db : DB) (pid : Nat) (actorId : Nat) (actorStaff : Bool)
    (new_quantity : Option Int) : Except StockError Product × DB :=
  match db.products.find? (fun p => p.id == pid && p.is_active) with
  | none => (Except.error StockError.notFound, db)
  | some p =>
    if !(p.user_id == actorId) && !actorStaff then (Except.error StockError.forbidden, db)
    else
      match new_quantity with
      | none => (Except.error StockError.required, db)
      | some q =>
        if q < 0 then (Except.error StockError.negative, db)
        else
          let p' := { p with stock_quantity := q }
          (Except.ok p', updProduct db p')

/-- Failure modes of `OrderViewSet.update_status`. -/
inductive StatusError
  | notFound
  | required
  | invalidStatus
  | terminalState
  deriving Repr, DecidableEq

/-- The `valid_statuses` list of views.py 179. -/
def valid_statuses : List String :=
  ["pending", "processing", "shipped", "delivered", "cancelled"]

/-- `OrderViewSet.update_status` (views.py 167-196), reached only by staff
(`permission_classes=[IsAdminUser]`, under which `get_queryset` spans all
orders): reject a missing or empty status (`if not new_status` is also
true of the empty string), a status outside `valid_statuses`, and any
transition out of the terminal statuses `delivered` and `cancelled`;
otherwise set the status unconditionally. -/
def update_status (db : DB) (oid : Nat) (new_status : Option String) :
    Except StatusError Order × DB :=
  match findOrder db oid with
  | none => (Except.error StatusError.notFound, db)
  | some o =>
    match new_status with
    | none => (Except.error StatusError.required, db)
    | some s =>
      if s == "" then (Except.error StatusError.required, db)
      else if !(valid_statuses.contains s) then (Except.error StatusError.invalidStatus, db)
      else if o.status == "delivered" || o.status == "cancelled" then
        (Except.error StatusError.terminalState, db)
      else
        let o' := { o with status := s }
        (Except.ok o', updOrder db o')

/-- Failure modes of `confirm_payment`. -/
inductive PaymentError
  | paymentNotCompleted
  | orderNotFound
  deriving Repr, DecidableEq

/-- `confirm_payment` (views.py 390-427).  `intentStatus` is the status the
payment gateway reports for `payment_intent_id`.  Only when it is
`succeeded` is the order looked up — and only among the requester's own
orders (`Order.objects.get(id=order_id, user=request.user)`); the order's
`payment_status` becomes `paid` and the intent reference is stored.  Any
other gateway status fails with no lookup and no write. -/
def confirm_payment (db : DB) (userId : Nat) (payment_intent_id : String)
    (order_id : Nat) (intentStatus : String) : Except PaymentError Order × DB :=
  if intentStatus == "succeeded" then
    match db.orders.find? (fun o => o.id == order_id && o.user_id == userId) with
    | none => (Except.error PaymentError.orderNotFound, db)
    | some o =>
      let o' := { o with payment_status := "paid", payment_intent_id := some payment_intent_id }
      (Except.ok o', updOrder db o')
  else (Except.error PaymentError.paymentNotCompleted, db)

/-- The `Product` model defines no `weight` field, so
`hasattr(item.product, 'weight')` is `False` for every catalog product. -/
def productWeight (_p : Product) : Option ℚ := none

/-- The `total_weight` generator expression of `Order.calculate_shipping`
(models.py 160-164): sum `weight * quantity` over the order's items whose
product has a truthy `weight` attribute. -/
def total_weight (db : DB) (oid : Nat) : ℚ :=
  ((itemsOf db oid).filterMap (fun it =>
      (findProduct db it.product_id).bind (fun p =>
        (productWeight p).bind (fun w =>
          if w == 0 then none else some (w * (it.quantity : ℚ)))))).sum

/-- `Order.calculate_shipping` (models.py 151-170) as a function of the
dereferenced zone, the order's `total_amount`, and the computed total
weight.  A `None` zone gives `0.00`; a truthy threshold (`if
self.shipping_zone.free_shipping_threshold and ...` — `Decimal('0.00')`
is falsy) at or below the total gives `0.00`; otherwise the base rate —
except that a strictly positive total weight would read the nonexistent
`ShippingZone.per_kg_rate` attribute and raise `AttributeError`, modelled
as `none`. -/
def calculate_shipping (zone : Option ShippingZone) (total_amount : ℚ) (tw : ℚ) :
    Option ℚ :=
  match zone with
  | none => some 0
  | some z =>
    let free :=
      match z.free_shipping_threshold with
      | some t => !(t == 0) && decide (t ≤ total_amount)
      | none => false
    if free then some 0
    else if 0 < tw then none
    else some z.base_rate

/-- The response shapes of `calculate_shipping_preview` (views.py 204-230). -/
inductive PreviewResp
  | noZone
  | free
  | cost (c : ℚ)
  | invalidZone
  deriving Repr, DecidableEq

/-- `calculate_shipping_preview` (views.py 204-230): no (or falsy) zone id
gives cost 0; an unknown zone id is a 400; a truthy threshold at or below
`cart_total` gives the free response; otherwise the zone's base rate with
`is_free=False`. -/
def calculate_shipping_preview (zones : List ShippingZone) (shipping_zone_id : Option Nat)
    (cart_total : ℚ) : PreviewResp :=
  match shipping_zone_id with
  | none => PreviewResp.noZone
  | some zid =>
    if zid == 0 then PreviewResp.noZone
    else
      match zones.find? (fun z => z.id == zid) with
      | none => PreviewResp.invalidZone
      | some z =>
        let free :=
          match z.free_shipping_threshold with
          | some t => !(t == 0) && decide (t ≤ cart_total)
          | none => false
        if free then PreviewResp.free else PreviewResp.cost z.base_rate

/-- One state-mutating request, for reachability statements: an order
placement, a cancellation, or a stock update. -/
inductive Op
  | place (userId : Nat) (addr : String) (notes : Option String)
      (items : List ItemReq) (uuidHex : String)
  | cancel (oid actorId : Nat) (staff : Bool)
  | setStock (pid actorId : Nat) (staff : Bool) (q : Option Int)

/-- The database state after a request, successful or not. -/
def applyOp (db : DB) : Op → DB
  | Op.place u a n its hex => (placeOrder db u a n its hex).2
  | Op.cancel oid aid st => (cancelOrder db oid aid st).2
  | Op.setStock pid aid st q => (update_stock db pid aid st q).2

/-- The database state after a sequence of requests, executed one by one. -/
def applyOps (db : DB) (ops : List Op) : DB := ops.foldl applyOp db

/-- A sequence of admin status-update requests `(order id, requested
status)`, applied one after the other. -/
def applyStatusUpdates (db : DB) (reqs : List (Nat × Option String)) : DB :=
  reqs.foldl (fun d r => (update_status d r.1 r.2).2) db

/-- Every product's stock is non-negative. -/
def stockNonneg (db : DB) : Prop := ∀ p ∈ db.products, 0 ≤ p.stock_quantity

/-- Every order item's quantity is at least 1 (the model validator
`MinValueValidator(1)` plus the serializer check). -/
def itemQtyPos (db : DB) : Prop := ∀ it ∈ db.order_items, 1 ≤ it.quantity

/-- Every item's stored subtotal is its quantity times its unit price. -/
def subtotalsOK (db : DB) : Prop :=
  ∀ it ∈ db.order_items, it.subtotal = (it.quantity : ℚ) * it.unit_price

/-- The order `oid`'s stored total is the sum of its items' subtotals. -/
def totalOK (db : DB) (oid : Nat) : Prop :=
  ∀ o ∈ db.orders, o.id = oid → o.total_amount = ((itemsOf db oid).map (·.subtotal)).sum

/-- A catalog with 10 Widgets in stock and 0 Gadgets, no orders yet. -/
def dbTwoProducts : DB :=
  { products :=
      [{ id := 1, user_id := 1, name := "Widget", price := 5, stock_quantity := 10,
         sku := "SKU1", is_active := true },
       { id := 2, user_id := 1, name := "Gadget", price := 3, stock_quantity := 0,
         sku := "SKU2", is_active := true }],
    orders := [], order_items := [] }

/-- A state with one pending order of 3 Widgets and the Widget's stock
already decremented to 7 by that order's placement. -/
def dbPendingOrder : DB :=
  { products :=
      [{ id := 1, user_id := 1, name := "Widget", price := 5, stock_quantity := 7,
         sku := "SKU1", is_active := true }],
    orders :=
      [{ id := 1, user_id := 1, order_number := "ORD-DEADBEEF", total_amount := 15,
         status := "pending", shipping_address := "addr", notes := none,
         payment_status := "pending", payment_intent_id := none, shipping_zone := none,
         shipping_cost := 0 }],
    order_items :=
      [{ id := 1, order_id := 1, product_id := 1, quantity := 3, unit_price := 5,
         subtotal := 15 }] }

/-- The order-item row of `dbPendingOrder`. -/
def itemPending : OrderItem :=
  { id := 1, order_id := 1, product_id := 1, quantity := 3, unit_price := 5, subtotal := 15 }

/-- The product row of `dbPendingOrder`. -/
def prodWidget7 : Product :=
  { id := 1, user_id := 1, name := "Widget", price := 5, stock_quantity := 7,
    sku := "SKU1", is_active := true }

/-- The pending order row of `dbPendingOrder`. -/
def ordPending : Order :=
  { id := 1, user_id := 1, order_number := "ORD-DEADBEEF", total_amount := 15,
    status := "pending", shipping_address := "addr", notes := none,
    payment_status := "pending", payment_intent_id := none, shipping_zone := none,
    shipping_cost := 0 }

/-- A state with one delivered order over the same catalog. -/
def dbDelivered : DB :=
  { products :=
      [{ id := 1, user_id := 1, name := "Widget", price := 5, stock_quantity := 7,
         sku := "SKU1", is_active := true }],
    orders :=
      [{ id := 1, user_id := 1, order_number := "ORD-DEADBEEF", total_amount := 15,
         status := "delivered", shipping_address := "addr", notes := none,
         payment_status := "paid", payment_intent_id := none, shipping_zone := none,
         shipping_cost := 0 }],
    order_items :=
      [{ id := 1, order_id := 1, product_id := 1, quantity := 3, unit_price := 5,
         subtotal := 15 }] }

/-- The delivered order row of `dbDelivered`. -/
def ordDelivered : Order :=
  { id := 1, user_id := 1, order_number := "ORD-DEADBEEF", total_amount := 15,
    status := "delivered", shipping_address := "addr", notes := none,
    payment_status := "paid", payment_intent_id := none, shipping_zone := none,
    shipping_cost := 0 }

def ordPendingPaid : Order :=
  { ordPending with payment_status := "paid", payment_intent_id := some "pi_123" }

/-- A catalog whose only product is deactivated but in stock. -/
def dbInactive : DB :=
  { products :=
      [{ id := 1, user_id := 1, name := "Retired", price := 5, stock_quantity := 10,
         sku := "SKU9", is_active := false }],
    orders := [], order_items := [] }

/-- The deactivated product row of `dbInactive`. -/
def prodRetired : Product :=
  { id := 1, user_id := 1, name := "Retired", price := 5, stock_quantity := 10,
    sku := "SKU9", is_active := false }

/-- The Riyadh zone of the free-shipping scenario: base rate 25.00 with a
free-shipping threshold of 500.00. -/
def zoneStandard : ShippingZone :=
  { id := 1, name := "Riyadh", country := "SA", base_rate := 25,
    free_shipping_threshold := some 500 }

/-- A zone whose free-shipping threshold is set to 0.00. -/
def zoneZeroThreshold : ShippingZone :=
  { id := 2, name := "ZeroZone", country := "SA", base_rate := 25,
    free_shipping_threshold := some 0 }

/-- An already numbered order occupying `ORD-DEADBEEF`. -/
def ordSeedCollision : Order :=
  { id := 1, user_id := 1, order_number := "ORD-DEADBEEF", total_amount := 0,
    status := "pending", shipping_address := "a", notes := none,
    payment_status := "pending", payment_intent_id := none, shipping_zone := none,
    shipping_cost := 0 }

/-- A database seeded with the `ORD-DEADBEEF` order. -/
def dbSeeded : DB := { products := [], orders := [ordSeedCollision], order_items := [] }

/-- A new, not yet numbered order row. -/
def ordShellNew : Order :=
  { id := 2, user_id := 1, order_number := "", total_amount := 0, status := "pending",
    shipping_address := "b", notes := none, payment_status := "pending",
    payment_intent_id := none, shipping_zone := none, shipping_cost := 0 }

/-- The empty database. -/
def dbEmpty : DB := { products := [], orders := [], order_items := [] }

/-- `ordShellNew` after its first save with uuid hex `0123456789abcdef…`. -/
def ordShellAssigned : Order := { ordShellNew with order_number := "ORD-01234567" }

instance (db : DB) : Decidable (stockNonneg db) := by
  unfold stockNonneg
  exact inferInstance

instance (db : DB) : Decidable (itemQtyPos db) := by
  unfold itemQtyPos
  exact inferInstance

instance (db : DB) : Decidable (subtotalsOK db) := by
  unfold subtotalsOK
  exact inferInstance

instance (db : DB) (oid : Nat) : Decidable (totalOK db oid) := by
  unfold totalOK
  exact inferInstance

/-! ### Structural lemmas about the state components each operation touches -/

theorem products_calculate_total (db : DB) (oid : Nat) :
    (calculate_total db oid).products = db.products := rfl

theorem order_items_calculate_total (db : DB) (oid : Nat) :
    (calculate_total db oid).order_items = db.order_items := rfl

theorem products_orderItemSave (db : DB) (it : OrderItem) :
    (orderItemSave db it).products = db.products := rfl

theorem products_updOrder (db : DB) (o : Order) :
    (updOrder db o).products = db.products := rfl

theorem order_items_updOrder (db : DB) (o : Order) :
    (updOrder db o).order_items = db.order_items := rfl

theorem products_deleteOrderCascade (db : DB) (oid : Nat) :
    (deleteOrderCascade db oid).products = db.products := rfl

theorem orders_updProduct (db : DB) (p : Product) :
    (updProduct db p).orders = db.orders := rfl

theorem order_items_updProduct (db : DB) (p : Product) :
    (updProduct db p).order_items = db.order_items := rfl

theorem orders_restoreStock (db : DB) (its : List OrderItem) :
    (restoreStock db its).orders = db.orders := by
  induction its generalizing db with
  | nil => rfl
  | cons it rest ih =>
    unfold restoreStock
    cases findProduct db it.product_id with
    | none => exact ih db
    | some p => exact ih _

theorem order_items_restoreStock (db : DB) (its : List OrderItem) :
    (restoreStock db its).order_items = db.order_items := by
  induction its generalizing db with
  | nil => rfl
  | cons it rest ih =>
    unfold restoreStock
    cases findProduct db it.product_id with
    | none => exact ih db
    | some p => exact ih _

/-! ### Lookup after a keyed row update -/

theorem find?_map_upd_eq {α : Type} (key : α → Nat) (x : α) (l : List α)
    (h : (l.find? (fun a => key a == key x)).isSome = true) :
    (l.map (fun a => if key a == key x then x else a)).find? (fun a => key a == key x)
      = some x := by
  induction l with
  | nil => simp at h
  | cons a l ih =>
    by_cases hk : key a = key x
    · simp [hk]
    · have h' : (l.find? (fun a => key a == key x)).isSome = true := by
        simpa [hk] using h
      simpa [hk, -List.find?_map] using ih h'

theorem find?_map_upd_ne {α : Type} (key : α → Nat) (x : α) (l : List α) (k : Nat)
    (h : k ≠ key x) :
    (l.map (fun a => if key a == key x then x else a)).find? (fun a => key a == k)
      = l.find? (fun a => key a == k) := by
  induction l with
  | nil => rfl
  | cons a l ih =>
    by_cases hk : key a = key x
    · have hxk : ¬ (key x = k) := fun hh => h hh.symm
      simp only [List.map_cons]
      rw [if_pos (by simpa using hk)]
      rw [List.find?_cons_of_neg _ (by simpa using hxk),
        List.find?_cons_of_neg _ (by simp [hk, hxk])]
      exact ih
    · simp only [List.map_cons]
      rw [if_neg (by simpa using hk)]
      by_cases hak : key a = k
      · rw [List.find?_cons_of_pos _ (by simpa using hak),
          List.find?_cons_of_pos _ (by simpa using hak)]
      · rw [List.find?_cons_of_neg _ (by simpa using hak),
          List.find?_cons_of_neg _ (by simpa using hak)]
        exact ih

theorem findProduct_updProduct_eq (db : DB) (p : Product)
    (h : (findProduct db p.id).isSome = true) :
    findProduct (updProduct db p) p.id = some p :=
  find?_map_upd_eq Product.id p db.products h

theorem findProduct_updProduct_ne (db : DB) (p : Product) (pid : Nat) (h : pid ≠ p.id) :
    findProduct (updProduct db p) pid = findProduct db pid :=
  find?_map_upd_ne Product.id p db.products pid h

theorem findOrder_updOrder_eq (db : DB) (o : Order)
    (h : (findOrder db o.id).isSome = true) :
    findOrder (updOrder db o) o.id = some o :=
  find?_map_upd_eq Order.id o db.orders h

theorem findOrder_updOrder_ne (db : DB) (o : Order) (oid : Nat) (h : oid ≠ o.id) :
    findOrder (updOrder db o) oid = findOrder db oid :=
  find?_map_upd_ne Order.id o db.orders oid h

/-- The element `find?` returns satisfies the predicate; specialised to the
id-keyed lookups: the row found under `pid` has id `pid`. -/
theorem findProduct_id {db : DB} {pid : Nat} {p : Product}
    (h : findProduct db pid = some p) : p.id = pid := by
  have := List.find?_some h
  simpa using this

theorem findOrder_id {db : DB} {oid : Nat} {o : Order}
    (h : findOrder db oid = some o) : o.id = oid := by
  have := List.find?_some h
  simpa using this

theorem findProduct_mem {db : DB} {pid : Nat} {p : Product}
    (h : findProduct db pid = some p) : p ∈ db.products :=
  List.mem_of_find?_eq_some h

/-! ### Stock non-negativity through each mutator -/

theorem stockNonneg_updProduct {db : DB} {p : Product} (hs : stockNonneg db)
    (hp : 0 ≤ p.stock_quantity) : stockNonneg (updProduct db p) := by
  intro q hq
  simp only [updProduct, List.mem_map] at hq
  obtain ⟨a, ha, rfl⟩ := hq
  by_cases h : a.id = p.id
  · simpa [h] using hp
  · simpa [h] using hs a ha

theorem stockNonneg_restoreStock (its : List OrderItem) (db : DB)
    (hs : stockNonneg db) (hq : ∀ it ∈ its, 1 ≤ it.quantity) :
    stockNonneg (restoreStock db its) := by
  induction its generalizing db with
  | nil => exact hs
  | cons it rest ih =>
    unfold restoreStock
    cases hf : findProduct db it.product_id with
    | none => exact ih db hs (fun j hj => hq j (List.mem_cons_of_mem _ hj))
    | some p =>
      refine ih _ ?_ (fun j hj => hq j (List.mem_cons_of_mem _ hj))
      refine stockNonneg_updProduct hs ?_
      have h0 : 0 ≤ p.stock_quantity := hs p (findProduct_mem hf)
      have h1 : 1 ≤ it.quantity := hq it (List.mem_cons_self _ _)
      dsimp only
      omega

/-! ### Which product rows the cancel loop touches, and how -/

theorem restoreStock_not_mentioned (its : List OrderItem) (db : DB) (pid : Nat)
    (h : ∀ it ∈ its, it.product_id ≠ pid) :
    findProduct (restoreStock db its) pid = findProduct db pid := by
  induction its generalizing db with
  | nil => rfl
  | cons it rest ih =>
    unfold restoreStock
    cases hf : findProduct db it.product_id with
    | none => exact ih db (fun j hj => h j (List.mem_cons_of_mem _ hj))
    | some p =>
      rw [ih _ (fun j hj => h j (List.mem_cons_of_mem _ hj))]
      refine findProduct_updProduct_ne db _ pid ?_
      have hpid : p.id = it.product_id := findProduct_id hf
      have := h it (List.mem_cons_self _ _)
      dsimp only
      omega

theorem restoreStock_hit (its : List OrderItem) (db : DB) (it : OrderItem)
    (p : Product) (hmem : it ∈ its) (hnd : (its.map (·.product_id)).Nodup)
    (hf : findProduct db it.product_id = some p) :
    findProduct (restoreStock db its) it.product_id
      = some { p with stock_quantity := p.stock_quantity + it.quantity } := by
  induction its generalizing db with
  | nil => cases hmem
  | cons j rest ih =>
    rcases List.mem_cons.mp hmem with rfl | hmem'
    · unfold restoreStock
      rw [hf]
      have hpid : p.id = it.product_id := findProduct_id hf
      have hcons : (∀ x ∈ rest, ¬ x.product_id = it.product_id)
          ∧ (rest.map (fun x => x.product_id)).Nodup := by simpa using hnd
      have hnot : ∀ k ∈ rest, k.product_id ≠ it.product_id := fun k hk => hcons.1 k hk
      rw [restoreStock_not_mentioned rest _ _ hnot]
      have hid : ({ p with stock_quantity := p.stock_quantity + it.quantity } : Product).id
          = it.product_id := hpid
      rw [← hid]
      refine findProduct_updProduct_eq db _ ?_
      rw [hid, hf]
      rfl
    · have hcons : (∀ x ∈ rest, ¬ x.product_id = j.product_id)
          ∧ (rest.map (fun x => x.product_id)).Nodup := by simpa using hnd
      have hj : j.product_id ≠ it.product_id := fun he => hcons.1 it hmem' he.symm
      have hnd' : (rest.map (·.product_id)).Nodup := hcons.2
      unfold restoreStock
      cases hfj : findProduct db j.product_id with
      | none => exact ih _ hmem' hnd' hf
      | some q =>
        refine ih _ hmem' hnd' ?_
        rw [findProduct_updProduct_ne]
        · exact hf
        · have : q.id = j.product_id := findProduct_id hfj
          dsimp only
          omega

/-! ### Which product rows the placement loop touches, and how -/

theorem findProduct_orderItemSave (db : DB) (it : OrderItem) (pid : Nat) :
    findProduct (orderItemSave db it) pid = findProduct db pid := rfl

theorem findProduct_deleteOrderCascade (db : DB) (oid : Nat) (pid : Nat) :
    findProduct (deleteOrderCascade db oid) pid = findProduct db pid := rfl

theorem createItems_not_mentioned (reqs : List ItemReq) (oid : Nat) (db : DB) (pid : Nat)
    (h : ∀ r ∈ reqs, r.product_id ≠ pid) :
    findProduct (createItems oid db reqs).2 pid = findProduct db pid := by
  induction reqs generalizing db with
  | nil => rfl
  | cons r rest ih =>
    unfold createItems
    cases hf : findProduct db r.product_id with
    | none => simp only [hf]
    | some p =>
      simp only [hf]
      by_cases hlt : p.stock_quantity < r.quantity
      · rw [if_pos hlt]
        exact findProduct_deleteOrderCascade db oid pid
      · rw [if_neg hlt]
        rw [ih _ (fun j hj => h j (List.mem_cons_of_mem _ hj))]
        rw [findProduct_updProduct_ne]
        · rfl
        · have hpid : p.id = r.product_id := findProduct_id hf
          have := h r (List.mem_cons_self _ _)
          dsimp only
          omega

theorem createItems_ok (reqs : List ItemReq) (oid : Nat) (db : DB)
    (hnd : (reqs.map (·.product_id)).Nodup)
    (hex : ∀ r ∈ reqs, ∃ p, findProduct db r.product_id = some p
        ∧ r.quantity ≤ p.stock_quantity) :
    (createItems oid db reqs).1 = Except.ok () ∧
    ∀ r ∈ reqs, ∀ p, findProduct db r.product_id = some p →
      findProduct (createItems oid db reqs).2 r.product_id
        = some { p with stock_quantity := p.stock_quantity - r.quantity } := by
  induction reqs generalizing db with
  | nil => exact ⟨rfl, fun r hr => absurd hr (List.not_mem_nil r)⟩
  | cons r rest ih =>
    obtain ⟨p, hf, hle⟩ := hex r (List.mem_cons_self _ _)
    have hpid : p.id = r.product_id := findProduct_id hf
    have hcons : (∀ x ∈ rest, ¬ x.product_id = r.product_id)
        ∧ (rest.map (fun x => x.product_id)).Nodup := by simpa using hnd
    have hlt : ¬ (p.stock_quantity < r.quantity) := not_lt.mpr hle
    unfold createItems
    simp only [hf]
    rw [if_neg hlt]
    set pDec : Product := { p with stock_quantity := p.stock_quantity - r.quantity } with hpdef
    set db1 : DB := orderItemSave db
      { id := nextItemId db, order_id := oid, product_id := p.id,
        quantity := r.quantity, unit_price := p.price, subtotal := 0 } with hdb1
    have hfind1 : ∀ k, findProduct db1 k = findProduct db k := fun k => rfl
    have hfind2 : ∀ k, k ≠ r.product_id →
        findProduct (updProduct db1 pDec) k = findProduct db1 k := by
      intro k hk
      refine findProduct_updProduct_ne db1 pDec k ?_
      have : pDec.id = p.id := rfl
      omega
    have hex' : ∀ j ∈ rest, ∃ q, findProduct (updProduct db1 pDec) j.product_id = some q
        ∧ j.quantity ≤ q.stock_quantity := by
      intro j hj
      obtain ⟨q, hq, hqle⟩ := hex j (List.mem_cons_of_mem _ hj)
      refine ⟨q, ?_, hqle⟩
      rw [hfind2 _ (hcons.1 j hj), hfind1]
      exact hq
    have hsome : (findProduct (updProduct db1 pDec) pDec.id) = some pDec := by
      refine findProduct_updProduct_eq db1 pDec ?_
      have hh : pDec.id = r.product_id := hpid
      rw [hh, hfind1, hf]
      rfl
    obtain ⟨hok, hdec⟩ := ih _ hcons.2 hex'
    refine ⟨hok, ?_⟩
    intro j hj q hq
    rcases List.mem_cons.mp hj with hjr | hj'
    · subst hjr
      have hq' : q = p := by
        rw [hq] at hf
        exact Option.some.inj hf
      subst hq'
      rw [createItems_not_mentioned _ _ _ _ hcons.1]
      have hidk : pDec.id = j.product_id := hpid
      rw [← hidk]
      exact hsome
    · exact hdec j hj' q (by rw [hfind2 _ (hcons.1 j hj'), hfind1]; exact hq)

theorem stockNonneg_createItems (reqs : List ItemReq) (oid : Nat) (db : DB)
    (hs : stockNonneg db) : stockNonneg (createItems oid db reqs).2 := by
  induction reqs generalizing db with
  | nil => exact hs
  | cons r rest ih =>
    unfold createItems
    cases hf : findProduct db r.product_id with
    | none => simpa only [hf] using hs
    | some p =>
      simp only [hf]
      by_cases hlt : p.stock_quantity < r.quantity
      · rw [if_pos hlt]
        exact hs
      · rw [if_neg hlt]
        refine ih _ ?_
        refine stockNonneg_updProduct ?_ ?_
        · exact hs
        · dsimp only
          omega

/-! ### Item quantity and subtotal invariants through each mutator -/

theorem itemQtyPos_orderItemSave {db : DB} {it : OrderItem} (h : itemQtyPos db)
    (hq : 1 ≤ it.quantity) : itemQtyPos (orderItemSave db it) := by
  intro x hx
  simp only [orderItemSave, calculate_total] at hx
  split at hx
  · simp only [List.mem_map] at hx
    obtain ⟨a, ha, rfl⟩ := hx
    by_cases hc : a.id = it.id
    · simpa [hc] using hq
    · simpa [hc] using h a ha
  · rcases List.mem_append.mp hx with ha | ha
    · exact h x ha
    · rcases List.mem_singleton.mp ha with rfl
      exact hq

theorem itemQtyPos_deleteOrderCascade {db : DB} (oid : Nat) (h : itemQtyPos db) :
    itemQtyPos (deleteOrderCascade db oid) := by
  intro x hx
  exact h x (List.mem_of_mem_filter hx)

theorem itemQtyPos_createItems (reqs : List ItemReq) (oid : Nat) (db : DB)
    (h : itemQtyPos db) (hq : ∀ r ∈ reqs, 1 ≤ r.quantity) :
    itemQtyPos (createItems oid db reqs).2 := by
  induction reqs generalizing db with
  | nil => exact h
  | cons r rest ih =>
    unfold createItems
    cases hf : findProduct db r.product_id with
    | none => simpa only [hf] using h
    | some p =>
      simp only [hf]
      by_cases hlt : p.stock_quantity < r.quantity
      · rw [if_pos hlt]
        exact itemQtyPos_deleteOrderCascade oid h
      · rw [if_neg hlt]
        refine ih _ ?_ (fun j hj => hq j (List.mem_cons_of_mem _ hj))
        exact itemQtyPos_orderItemSave h (hq r (List.mem_cons_self _ _))

theorem subtotalsOK_orderItemSave {db : DB} {it : OrderItem} (h : subtotalsOK db) :
    subtotalsOK (orderItemSave db it) := by
  intro x hx
  simp only [orderItemSave, calculate_total] at hx
  split at hx
  · simp only [List.mem_map] at hx
    obtain ⟨a, ha, rfl⟩ := hx
    by_cases hc : a.id = it.id
    · simp [hc]
    · simpa [hc] using h a ha
  · rcases List.mem_append.mp hx with ha | ha
    · exact h x ha
    · rcases List.mem_singleton.mp ha with rfl
      rfl

theorem subtotalsOK_deleteOrderCascade {db : DB} (oid : Nat) (h : subtotalsOK db) :
    subtotalsOK (deleteOrderCascade db oid) := by
  intro x hx
  exact h x (List.mem_of_mem_filter hx)

theorem subtotalsOK_createItems (reqs : List ItemReq) (oid : Nat) (db : DB)
    (h : subtotalsOK db) : subtotalsOK (createItems oid db reqs).2 := by
  induction reqs generalizing db with
  | nil => exact h
  | cons r rest ih =>
    unfold createItems
    cases hf : findProduct db r.product_id with
    | none => simpa only [hf] using h
    | some p =>
      simp only [hf]
      by_cases hlt : p.stock_quantity < r.quantity
      · rw [if_pos hlt]
        exact subtotalsOK_deleteOrderCascade oid h
      · rw [if_neg hlt]
        exact ih _ (subtotalsOK_orderItemSave h)

/-- After `calculate_total`, the recomputed order's stored total is the sum
of its items' subtotals. -/
theorem totalOK_calculate_total (db : DB) (oid : Nat) :
    totalOK (calculate_total db oid) oid := by
  intro o ho hid
  simp only [calculate_total, List.mem_map] at ho
  obtain ⟨a, ha, rfl⟩ := ho
  by_cases h : a.id = oid
  · rw [if_pos (show (a.id == oid) = true by simpa using h)]
    rfl
  · rw [if_neg (show ¬ (a.id == oid) = true by simpa using h)] at hid
    exact absurd hid h

/-! ### Invariant transport along states that share a component -/

theorem stockNonneg_of_products_eq {db db' : DB} (h : db'.products = db.products)
    (hs : stockNonneg db) : stockNonneg db' := by
  intro p hp
  exact hs p (h ▸ hp)

theorem itemQtyPos_of_items_eq {db db' : DB} (h : db'.order_items = db.order_items)
    (hs : itemQtyPos db) : itemQtyPos db' := by
  intro x hx
  exact hs x (h ▸ hx)

theorem subtotalsOK_of_items_eq {db db' : DB} (h : db'.order_items = db.order_items)
    (hs : subtotalsOK db) : subtotalsOK db' := by
  intro x hx
  exact hs x (h ▸ hx)

theorem superSave_components (db : DB) (o2 : Order) :
    ∀ o' db', superSave db o2 = Except.ok (o', db') →
      db'.products = db.products ∧ db'.order_items = db.order_items := by
  intro o' db' h
  unfold superSave at h
  by_cases hcol : (db.orders.any fun e => e.order_number == o2.order_number && e.id != o2.id)
      = true
  · rw [if_pos hcol] at h
    cases h
  · rw [if_neg hcol] at h
    by_cases hupd : (db.orders.any fun e => e.id == o2.id) = true
    · rw [if_pos hupd] at h
      injection h with h1
      cases h1
      exact ⟨rfl, rfl⟩
    · rw [if_neg hupd] at h
      injection h with h1
      cases h1
      exact ⟨rfl, rfl⟩

theorem orderSave_components (db : DB) (o : Order) (uuidHex : String) :
    ∀ o' db', orderSave db o uuidHex = Except.ok (o', db') →
      db'.products = db.products ∧ db'.order_items = db.order_items := by
  intro o' db' h
  exact superSave_components db _ o' db' h

/-- `validate_order_items` succeeding means every requested quantity is at
least 1. -/
theorem validOrderItems_quantities {items : List ItemReq}
    (h : validOrderItems items = true) : ∀ r ∈ items, 1 ≤ r.quantity := by
  intro r hr
  unfold validOrderItems at h
  have := (Bool.and_eq_true _ _).mp h
  have hall := List.all_eq_true.mp this.2 r hr
  exact of_decide_eq_true hall

/-! ### Every request handler preserves the stock and quantity invariants -/

theorem invariant_placeOrder (db : DB) (u : Nat) (a : String) (n : Option String)
    (items : List ItemReq) (uuidHex : String) (h1 : stockNonneg db) (h2 : itemQtyPos db) :
    stockNonneg (placeOrder db u a n items uuidHex).2
      ∧ itemQtyPos (placeOrder db u a n items uuidHex).2 := by
  unfold placeOrder
  by_cases hv : validOrderItems items = true
  · rw [if_neg (by simp [hv])]
    cases hs : orderSave db (newOrderShell (nextOrderId db) u a n) uuidHex with
    | error e => exact ⟨h1, h2⟩
    | ok pair =>
      obtain ⟨o, db1⟩ := pair
      dsimp only
      obtain ⟨hp, hi⟩ := orderSave_components db _ uuidHex o db1 hs
      have h1' : stockNonneg db1 := stockNonneg_of_products_eq hp h1
      have h2' : itemQtyPos db1 := itemQtyPos_of_items_eq hi h2
      cases hc : createItems o.id db1 items with
      | mk res db2 =>
        have hs2 : stockNonneg db2 := by
          have := stockNonneg_createItems items o.id db1 h1'
          rwa [hc] at this
        have hq2 : itemQtyPos db2 := by
          have := itemQtyPos_createItems items o.id db1 h2' (validOrderItems_quantities hv)
          rwa [hc] at this
        cases res with
        | error e => exact ⟨hs2, hq2⟩
        | ok u' =>
          dsimp only
          refine ⟨stockNonneg_of_products_eq ?_ hs2, itemQtyPos_of_items_eq ?_ hq2⟩
          · exact products_calculate_total db2 o.id
          · exact order_items_calculate_total db2 o.id
  · rw [if_pos (by simpa using hv)]
    exact ⟨h1, h2⟩

theorem invariant_cancelOrder (db : DB) (oid actorId : Nat) (staff : Bool)
    (h1 : stockNonneg db) (h2 : itemQtyPos db) :
    stockNonneg (cancelOrder db oid actorId staff).2
      ∧ itemQtyPos (cancelOrder db oid actorId staff).2 := by
  unfold cancelOrder
  cases hfo : db.orders.find?
      (fun o => o.id == oid && (staff || o.user_id == actorId)) with
  | none => exact ⟨h1, h2⟩
  | some o =>
    dsimp only
    by_cases hperm : (o.user_id != actorId && !staff) = true
    · rw [if_pos hperm]
      exact ⟨h1, h2⟩
    · rw [if_neg hperm]
      by_cases hst : (!(o.status == "pending")) = true
      · rw [if_pos hst]
        exact ⟨h1, h2⟩
      · rw [if_neg hst]
        constructor
        · refine stockNonneg_of_products_eq (products_updOrder _ _) ?_
          refine stockNonneg_restoreStock _ _ h1 ?_
          intro it hit
          exact h2 it (List.mem_of_mem_filter hit)
        · refine itemQtyPos_of_items_eq ?_ h2
          rw [order_items_updOrder, order_items_restoreStock]

theorem invariant_update_stock (db : DB) (pid actorId : Nat) (staff : Bool)
    (q : Option Int) (h1 : stockNonneg db) (h2 : itemQtyPos db) :
    stockNonneg (update_stock db pid actorId staff q).2
      ∧ itemQtyPos (update_stock db pid actorId staff q).2 := by
  unfold update_stock
  cases hfp : db.products.find? (fun p => p.id == pid && p.is_active) with
  | none => exact ⟨h1, h2⟩
  | some p =>
    dsimp only
    by_cases hperm : (!(p.user_id == actorId) && !staff) = true
    · rw [if_pos hperm]
      exact ⟨h1, h2⟩
    · rw [if_neg hperm]
      cases q with
      | none => exact ⟨h1, h2⟩
      | some v =>
        dsimp only
        by_cases hneg : v < 0
        · rw [if_pos hneg]
          exact ⟨h1, h2⟩
        · rw [if_neg hneg]
          constructor
          · refine stockNonneg_updProduct h1 ?_
            dsimp only
            omega
          · exact itemQtyPos_of_items_eq (order_items_updProduct _ _) h2

theorem invariant_applyOp (db : DB) (op : Op) (h1 : stockNonneg db) (h2 : itemQtyPos db) :
    stockNonneg (applyOp db op) ∧ itemQtyPos (applyOp db op) := by
  cases op with
  | place u a n its hex => exact invariant_placeOrder db u a n its hex h1 h2
  | cancel oid aid st => exact invariant_cancelOrder db oid aid st h1 h2
  | setStock pid aid st q => exact invariant_update_stock db pid aid st q h1 h2

theorem invariant_applyOps (db : DB) (ops : List Op) (h1 : stockNonneg db)
    (h2 : itemQtyPos db) :
    stockNonneg (applyOps db ops) ∧ itemQtyPos (applyOps db ops) := by
  induction ops generalizing db with
  | nil => exact ⟨h1, h2⟩
  | cons op rest ih =>
    obtain ⟨h1', h2'⟩ := invariant_applyOp db op h1 h2
    exact ih _ h1' h2'

/-! ### Concrete states used to exercise the handlers -/

/-- C1: placing an order for 3 Widgets (in stock) and 1 Gadget (out of
stock) fails with the insufficient-stock error naming the Gadget and its
available quantity 0, and deletes the shell order and its items — but the
Widget's stock, decremented to 7 by the first loop iteration, is NOT
restored to its pre-request value 10: the claimed full rollback of stock
does not happen. -/
theorem C1_insufficient_stock_rollback_incomplete :
    (placeOrder dbTwoProducts 1 "addr" none
        [⟨1, 3⟩, ⟨2, 1⟩] "deadbeefdeadbeefdeadbeefdeadbeef").1
      = Except.error (PlaceError.insufficientStock "Gadget" 0) ∧
    (placeOrder dbTwoProducts 1 "addr" none
        [⟨1, 3⟩, ⟨2, 1⟩] "deadbeefdeadbeefdeadbeefdeadbeef").2.orders = [] ∧
    (placeOrder dbTwoProducts 1 "addr" none
        [⟨1, 3⟩, ⟨2, 1⟩] "deadbeefdeadbeefdeadbeefdeadbeef").2.order_items = [] ∧
    (findProduct (placeOrder dbTwoProducts 1 "addr" none
        [⟨1, 3⟩, ⟨2, 1⟩] "deadbeefdeadbeefdeadbeefdeadbeef").2 1).map Product.stock_quantity
      = some 7 ∧
    (findProduct dbTwoProducts 1).map Product.stock_quantity = some 10 ∧ (7 : Int) ≠ 10 :=
  ⟨rfl, by decide, by decide, by decide, by decide, by decide⟩

/-- C3: starting from any state in which every product's stock is
non-negative and every order item's quantity is at least 1, any sequence
of order placements, cancellations and stock updates leaves every
product's stock non-negative: placement decrements only after the
availability check, cancellation only increments, and the stock-update
endpoint rejects negative values. -/
theorem C3_stock_never_negative (db : DB) (ops : List Op) (h1 : stockNonneg db)
    (h2 : itemQtyPos db) : stockNonneg (applyOps db ops) :=
  (invariant_applyOps db ops h1 h2).1

theorem C3_stock_never_negative_witness :
    stockNonneg dbTwoProducts ∧ itemQtyPos dbTwoProducts ∧
      stockNonneg (applyOps dbTwoProducts
        [Op.place 1 "addr" none [⟨1, 3⟩] "deadbeefdeadbeefdeadbeefdeadbeef",
         Op.cancel 1 1 false, Op.setStock 2 1 true (some 5)]) :=
  ⟨by decide, by decide, C3_stock_never_negative _ _ (by decide) (by decide)⟩

theorem findOrder_updOrder_key (db : DB) (o : Order) (k : Nat) (hk : o.id = k)
    (h : (findOrder db k).isSome = true) : findOrder (updOrder db o) k = some o := by
  subst hk
  exact findOrder_updOrder_eq db o h

theorem findProduct_updOrder (db : DB) (o : Order) (pid : Nat) :
    findProduct (updOrder db o) pid = findProduct db pid := rfl

/-- Resolving a pk against the owner-filtered queryset of
`OrderViewSet.get_queryset` (views.py 106-119): with unique order ids,
the row is retrieved exactly when the actor is staff or owns it. -/
theorem find?_visible (orders : List Order) (oid actorId : Nat) (staff : Bool) (o : Order)
    (hfind : orders.find? (fun e => e.id == oid) = some o)
    (hnd : (orders.map (·.id)).Nodup) :
    orders.find? (fun e => e.id == oid && (staff || e.user_id == actorId))
      = (if (staff || o.user_id == actorId) = true then some o else none) := by
  induction orders with
  | nil => simp at hfind
  | cons a rest ih =>
    have hcons : (∀ x ∈ rest, ¬ x.id = a.id) ∧ (rest.map (fun x => x.id)).Nodup := by
      simpa using hnd
    by_cases ha : a.id = oid
    · have hstep := List.find?_cons_of_pos (p := fun e => e.id == oid) (a := a) rest
        (by simpa using ha)
      rw [hstep] at hfind
      injection hfind with h
      subst h
      by_cases hvis : (staff || a.user_id == actorId) = true
      · rw [if_pos hvis]
        exact List.find?_cons_of_pos
          (p := fun e => e.id == oid && (staff || e.user_id == actorId)) (a := a) rest
          (by simp [ha, hvis])
      · rw [if_neg hvis]
        rw [List.find?_cons_of_neg
          (p := fun e => e.id == oid && (staff || e.user_id == actorId)) (a := a) rest
          (by simp [ha]; simpa using hvis)]
        rw [List.find?_eq_none]
        intro x hx
        have hxid : ¬ x.id = a.id := hcons.1 x hx
        simp only [Bool.and_eq_true]
        rintro ⟨hxo, -⟩
        exact hxid (by rw [ha]; simpa using hxo)
    · have hstep := List.find?_cons_of_neg (p := fun e => e.id == oid) (a := a) rest
        (by simpa using ha)
      rw [hstep] at hfind
      rw [List.find?_cons_of_neg
        (p := fun e => e.id == oid && (staff || e.user_id == actorId)) (a := a) rest
        (by simp [ha])]
      exact ih hfind hcons.2

/-- C4 counterexample: a non-owner, non-staff actor cancelling another
user's pending order receives NotFound (404), not Forbidden — the
owner-filtered queryset hides the order before the permission check of
views.py 144-148 can fire. -/
theorem C4_nonowner_gets_notFound :
    cancelOrder dbPendingOrder 1 2 false
      = (Except.error CancelError.notFound, dbPendingOrder) ∧
    ordPending.user_id ≠ 2 ∧
    CancelError.notFound ≠ CancelError.forbidden :=
  ⟨rfl, by decide, by decide⟩

/-- C4 (amended): cancel fails with NotFound for an actor who is neither
the order's owner nor staff — the owner-filtered queryset hides the order
and the handler's Forbidden branch is unreachable; it fails with
InvalidState unless the order is pending; on success the order becomes
cancelled and every item's quantity is added back onto its product's
stock, with unreferenced products untouched; on rejection nothing is
mutated. -/
theorem C4_cancel_permissions_state_and_restock (db : DB) (oid actorId : Nat)
    (staff : Bool) (o : Order) (ho : findOrder db oid = some o)
    (hords : (db.orders.map (·.id)).Nodup)
    (hnd : ((itemsOf db oid).map (·.product_id)).Nodup) :
    (¬(o.user_id = actorId ∨ staff = true) →
        cancelOrder db oid actorId staff = (Except.error CancelError.notFound, db)) ∧
    ((o.user_id = actorId ∨ staff = true) → o.status ≠ "pending" →
        cancelOrder db oid actorId staff = (Except.error CancelError.invalidState, db)) ∧
    ((o.user_id = actorId ∨ staff = true) → o.status = "pending" →
      (cancelOrder db oid actorId staff).1 = Except.ok { o with status := "cancelled" } ∧
      findOrder (cancelOrder db oid actorId staff).2 oid
        = some { o with status := "cancelled" } ∧
      (∀ it ∈ itemsOf db oid, ∀ p, findProduct db it.product_id = some p →
        findProduct (cancelOrder db oid actorId staff).2 it.product_id
          = some { p with stock_quantity := p.stock_quantity + it.quantity }) ∧
      (∀ pid, (∀ it ∈ itemsOf db oid, it.product_id ≠ pid) →
        findProduct (cancelOrder db oid actorId staff).2 pid = findProduct db pid)) := by
  have hoid : o.id = oid := findOrder_id ho
  have hvis := find?_visible db.orders oid actorId staff o ho hords
  unfold cancelOrder
  rw [hvis]
  refine ⟨?_, ?_, ?_⟩
  · intro hperm
    obtain ⟨ha, hb⟩ := not_or.mp hperm
    rw [if_neg (by simp [ha, hb])]
  · intro hperm hst
    have hv : (staff || o.user_id == actorId) = true := by
      rcases hperm with h | h <;> simp [h]
    rw [if_pos hv]
    dsimp only
    have h1 : (o.user_id != actorId && !staff) = false := by
      rcases hperm with h | h <;> simp [h]
    rw [if_neg (by simp [h1])]
    rw [if_pos (by simp [hst])]
  · intro hperm hst
    have hv : (staff || o.user_id == actorId) = true := by
      rcases hperm with h | h <;> simp [h]
    rw [if_pos hv]
    dsimp only
    have h1 : (o.user_id != actorId && !staff) = false := by
      rcases hperm with h | h <;> simp [h]
    rw [if_neg (by simp [h1])]
    rw [if_neg (by simp [hst])]
    have hb1 : findOrder (restoreStock db (itemsOf db oid)) oid = some o := by
      unfold findOrder
      rw [orders_restoreStock]
      exact ho
    refine ⟨rfl, ?_, ?_, ?_⟩
    · refine findOrder_updOrder_key _ _ oid hoid ?_
      rw [hb1]
      rfl
    · intro it hit p hp
      rw [findProduct_updOrder]
      exact restoreStock_hit _ db it p hit hnd hp
    · intro pid hpid
      rw [findProduct_updOrder]
      exact restoreStock_not_mentioned _ db pid hpid

theorem C4_cancel_witness :
    (cancelOrder dbPendingOrder 1 1 false).1 = Except.ok { ordPending with status := "cancelled" }
      ∧ (findProduct (cancelOrder dbPendingOrder 1 1 false).2 1).map Product.stock_quantity
          = some 10 := by
  have h := C4_cancel_permissions_state_and_restock dbPendingOrder 1 1 false ordPending
    (by decide) (by decide) (by decide)
  obtain ⟨-, -, h3⟩ := h
  obtain ⟨ha, -, hc, -⟩ := h3 (Or.inl rfl) rfl
  refine ⟨ha, ?_⟩
  have hit := hc itemPending (by decide) prodWidget7 (by decide)
  simp only [show itemPending.product_id = 1 from rfl] at hit
  rw [hit]
  decide

/-- A status update addressed at any order leaves an order that is already
in a terminal status untouched. -/
theorem update_status_keeps_terminal (db : DB) (oid : Nat) (o : Order)
    (ho : findOrder db oid = some o)
    (hterm : o.status = "delivered" ∨ o.status = "cancelled") :
    ∀ oid' s, findOrder (update_status db oid' s).2 oid = some o := by
  intro oid' s
  unfold update_status
  cases hfo : findOrder db oid' with
  | none => exact ho
  | some o2 =>
    dsimp only
    cases s with
    | none => exact ho
    | some st =>
      dsimp only
      by_cases he : st = ""
      · rw [if_pos (by simp [he])]
        exact ho
      · rw [if_neg (by simp [he])]
        cases hv : valid_statuses.contains st with
        | false =>
          rw [if_pos (by decide)]
          exact ho
        | true =>
          rw [if_neg (by decide)]
          by_cases ht2 : (o2.status == "delivered" || o2.status == "cancelled") = true
          · rw [if_pos ht2]
            exact ho
          · rw [if_neg ht2]
            by_cases heq : oid = oid'
            · subst heq
              rw [hfo] at ho
              injection ho with ho2
              subst ho2
              exact absurd (by rcases hterm with h | h <;> simp [h]) ht2
            · rw [findOrder_updOrder_ne]
              · exact ho
              · have : o2.id = oid' := findOrder_id hfo
                dsimp only
                omega

/-- C5: while an order is in a terminal status (delivered or cancelled),
every admin status update addressed to it is rejected with no state
change; while it is non-terminal, every requested value in the valid
status set is accepted and stored; consequently an order that has reached
a terminal status never changes status again through UpdateStatus. -/
theorem C5_update_status_terminal_lock (db : DB) (oid : Nat) (o : Order)
    (ho : findOrder db oid = some o) :
    ((o.status = "delivered" ∨ o.status = "cancelled") →
      ∀ s, (update_status db oid s).1.isOk = false ∧ (update_status db oid s).2 = db) ∧
    (¬(o.status = "delivered" ∨ o.status = "cancelled") →
      ∀ s ∈ valid_statuses,
        (update_status db oid (some s)).1 = Except.ok { o with status := s } ∧
        findOrder (update_status db oid (some s)).2 oid = some { o with status := s }) ∧
    ((o.status = "delivered" ∨ o.status = "cancelled") →
      ∀ reqs : List (Nat × Option String),
        findOrder (applyStatusUpdates db reqs) oid = some o) := by
  have hoid : o.id = oid := findOrder_id ho
  refine ⟨?_, ?_, ?_⟩
  · intro hterm s
    unfold update_status
    rw [ho]
    dsimp only
    cases s with
    | none => exact ⟨rfl, rfl⟩
    | some st =>
      dsimp only
      by_cases he : st = ""
      · rw [if_pos (by simp [he])]
        exact ⟨rfl, rfl⟩
      · rw [if_neg (by simp [he])]
        cases hv : valid_statuses.contains st with
        | false =>
          rw [if_pos (by decide)]
          exact ⟨rfl, rfl⟩
        | true =>
          rw [if_neg (by decide)]
          rw [if_pos (by rcases hterm with h | h <;> simp [h])]
          exact ⟨rfl, rfl⟩
  · intro hterm s hs
    obtain ⟨h1, h2⟩ := not_or.mp hterm
    unfold update_status
    rw [ho]
    dsimp only
    have hne : s ≠ "" := by
      rintro rfl
      simp [valid_statuses] at hs
    have hcont : valid_statuses.contains s = true := by
      fin_cases hs <;> decide
    rw [if_neg (by simp [hne])]
    rw [if_neg (by simp only [hcont]; decide)]
    rw [if_neg (by simp [h1, h2])]
    refine ⟨rfl, ?_⟩
    refine findOrder_updOrder_key _ _ oid hoid ?_
    rw [ho]
    rfl
  · intro hterm reqs
    induction reqs generalizing db with
    | nil => exact ho
    | cons r rest ih =>
      exact ih _ (update_status_keeps_terminal db oid o ho hterm r.1 r.2)

theorem C5_update_status_witness :
    ((update_status dbPendingOrder 1 (some "shipped")).1
        = Except.ok { ordPending with status := "shipped" }) ∧
    (update_status dbDelivered 1 (some "pending")).1.isOk = false ∧
    findOrder (applyStatusUpdates dbDelivered [(1, some "pending"), (1, some "processing")]) 1
      = some ordDelivered := by
  have hp := C5_update_status_terminal_lock dbPendingOrder 1 ordPending (by decide)
  have hd := C5_update_status_terminal_lock dbDelivered 1 ordDelivered (by decide)
  refine ⟨(hp.2.1 (by decide) "shipped" (by decide)).1, (hd.1 (Or.inl rfl) (some "pending")).1, ?_⟩
  exact hd.2.2 (Or.inl rfl) [(1, some "pending"), (1, some "processing")]

/-- C9: payment confirmation marks the order paid and stores the intent
reference exactly when the gateway reports the intent as succeeded; any
other gateway status fails with PaymentNotCompleted and mutates nothing;
and the order is looked up only among the requester's own orders, so
another user's confirmation attempt finds no order and mutates nothing. -/
theorem C9_confirm_payment_gateway_gated (db : DB) (userId : Nat) (ref : String)
    (oid : Nat) (st : String) :
    (st ≠ "succeeded" →
      confirm_payment db userId ref oid st
        = (Except.error PaymentError.paymentNotCompleted, db)) ∧
    (∀ o, db.orders.find? (fun e => e.id == oid && e.user_id == userId) = some o →
      st = "succeeded" →
      (confirm_payment db userId ref oid st).1
          = Except.ok { o with payment_status := "paid", payment_intent_id := some ref } ∧
      findOrder (confirm_payment db userId ref oid st).2 oid
          = some { o with payment_status := "paid", payment_intent_id := some ref }) ∧
    (db.orders.find? (fun e => e.id == oid && e.user_id == userId) = none →
      st = "succeeded" →
      confirm_payment db userId ref oid st = (Except.error PaymentError.orderNotFound, db)) := by
  refine ⟨?_, ?_, ?_⟩
  · intro hst
    unfold confirm_payment
    rw [if_neg (by simp [hst])]
  · intro o hfind hst
    subst hst
    have hid : o.id = oid := by
      have := List.find?_some hfind
      have hb := (Bool.and_eq_true _ _).mp this
      simpa using hb.1
    unfold confirm_payment
    rw [if_pos (by decide)]
    rw [hfind]
    dsimp only
    refine ⟨rfl, ?_⟩
    refine findOrder_updOrder_key _ _ oid hid ?_
    unfold findOrder
    rw [List.find?_isSome]
    exact ⟨o, List.mem_of_find?_eq_some hfind, by simp [hid]⟩
  · intro hfind hst
    subst hst
    unfold confirm_payment
    rw [if_pos (by decide)]
    rw [hfind]

theorem C9_confirm_payment_witness :
    (confirm_payment dbPendingOrder 1 "pi_123" 1 "succeeded").1 = Except.ok ordPendingPaid ∧
    confirm_payment dbPendingOrder 2 "pi_123" 1 "succeeded"
        = (Except.error PaymentError.orderNotFound, dbPendingOrder) ∧
    confirm_payment dbPendingOrder 1 "pi_123" 1 "requires_payment_method"
        = (Except.error PaymentError.paymentNotCompleted, dbPendingOrder) := by
  have h1 := C9_confirm_payment_gateway_gated dbPendingOrder 1 "pi_123" 1 "succeeded"
  have h2 := C9_confirm_payment_gateway_gated dbPendingOrder 2 "pi_123" 1 "succeeded"
  have h3 := C9_confirm_payment_gateway_gated dbPendingOrder 1 "pi_123" 1
    "requires_payment_method"
  refine ⟨?_, h2.2.2 (by decide) rfl, h3.1 (by decide)⟩
  have := (h1.2.1 ordPending (by decide) rfl).1
  rw [this]
  rfl

/-- C2: from any state whose stored subtotals are consistent, every
`OrderItem.save` and every `OrderItem.delete` leaves every stored subtotal
equal to quantity times unit price and the affected order's total equal to
the sum of its items' subtotals; and every successful placement leaves the
new order (row and returned object) with total equal to the sum of its
items' subtotals. -/
theorem C2_totals_and_subtotals (db : DB) (hsub : subtotalsOK db) :
    (∀ it : OrderItem, subtotalsOK (orderItemSave db it)
        ∧ totalOK (orderItemSave db it) it.order_id) ∧
    (∀ itemId : Nat, subtotalsOK (orderItemDelete db itemId)
        ∧ ∀ it, db.order_items.find? (fun x => x.id == itemId) = some it →
            totalOK (orderItemDelete db itemId) it.order_id) ∧
    (∀ u a n items uuidHex o db',
        placeOrder db u a n items uuidHex = (Except.ok o, db') →
        subtotalsOK db' ∧ totalOK db' o.id
          ∧ o.total_amount = ((itemsOf db' o.id).map (·.subtotal)).sum) := by
  refine ⟨?_, ?_, ?_⟩
  · intro it
    refine ⟨subtotalsOK_orderItemSave hsub, ?_⟩
    exact totalOK_calculate_total _ _
  · intro itemId
    constructor
    · unfold orderItemDelete
      cases hf : db.order_items.find? (fun x => x.id == itemId) with
      | none => exact hsub
      | some it =>
        dsimp only
        refine subtotalsOK_of_items_eq (order_items_calculate_total _ _) ?_
        intro x hx
        exact hsub x (List.mem_of_mem_filter hx)
    · intro it hf
      unfold orderItemDelete
      rw [hf]
      dsimp only
      exact totalOK_calculate_total _ _
  · intro u a n items uuidHex o db' h
    unfold placeOrder at h
    by_cases hv : validOrderItems items = true
    · rw [if_neg (by simp [hv])] at h
      cases hs : orderSave db (newOrderShell (nextOrderId db) u a n) uuidHex with
      | error e =>
        rw [hs] at h
        simp at h
      | ok pair =>
        obtain ⟨o1, db1⟩ := pair
        rw [hs] at h
        dsimp only at h
        obtain ⟨hp, hi⟩ := orderSave_components db _ uuidHex o1 db1 hs
        have hsub1 : subtotalsOK db1 := subtotalsOK_of_items_eq hi hsub
        cases hc : createItems o1.id db1 items with
        | mk res db2 =>
          have hsub2 : subtotalsOK db2 := by
            have := subtotalsOK_createItems items o1.id db1 hsub1
            rwa [hc] at this
          rw [hc] at h
          cases res with
          | error e => simp at h
          | ok u' =>
            dsimp only at h
            injection h with h1 h2
            injection h1 with h1
            subst h1
            subst h2
            refine ⟨subtotalsOK_of_items_eq (order_items_calculate_total _ _) hsub2, ?_, ?_⟩
            · exact totalOK_calculate_total _ _
            · rfl
    · rw [if_pos (by simpa using hv)] at h
      simp at h

theorem C2_totals_witness :
    subtotalsOK dbPendingOrder ∧
    subtotalsOK (orderItemSave dbPendingOrder
        { id := 2, order_id := 1, product_id := 1, quantity := 2, unit_price := 4,
          subtotal := 99 }) ∧
    totalOK (orderItemSave dbPendingOrder
        { id := 2, order_id := 1, product_id := 1, quantity := 2, unit_price := 4,
          subtotal := 99 }) 1 ∧
    subtotalsOK (orderItemDelete dbPendingOrder 1) ∧
    totalOK (orderItemDelete dbPendingOrder 1) 1 := by
  have hsubP : subtotalsOK dbPendingOrder := by
    intro it hit
    rcases List.mem_singleton.mp hit with rfl
    norm_num
  have h := C2_totals_and_subtotals dbPendingOrder hsubP
  refine ⟨hsubP, (h.1 _).1, (h.1 _).2, (h.2.1 1).1, ?_⟩
  exact (h.2.1 1).2 itemPending rfl

theorem findProduct_calculate_total (db : DB) (oid pid : Nat) :
    findProduct (calculate_total db oid) pid = findProduct db pid := rfl

/-- The placement loop succeeds and decrements every referenced product's
stock when all referenced products exist with sufficient stock, starting
from any state whose products agree with `db`. -/
theorem placeOrder_loop_effect (db db1 : DB) (oid : Nat) (items : List ItemReq)
    (hp : db1.products = db.products)
    (hnd : (items.map (·.product_id)).Nodup)
    (hex : ∀ r ∈ items, ∃ p, findProduct db r.product_id = some p
        ∧ r.quantity ≤ p.stock_quantity) :
    (createItems oid db1 items).1 = Except.ok () ∧
    ∀ r ∈ items, ∀ p, findProduct db r.product_id = some p →
      findProduct (createItems oid db1 items).2 r.product_id
        = some { p with stock_quantity := p.stock_quantity - r.quantity } := by
  have hfind : ∀ k, findProduct db1 k = findProduct db k := by
    intro k
    unfold findProduct
    rw [hp]
  obtain ⟨hok, hdec⟩ := createItems_ok items oid db1 hnd (fun r hr => by
    obtain ⟨p, hp2, hle⟩ := hex r hr
    exact ⟨p, by rw [hfind]; exact hp2, hle⟩)
  exact ⟨hok, fun r hr p hp2 => hdec r hr p (by rw [hfind]; exact hp2)⟩

/-- When the generated order number is fresh, `Order.save` on a new order
succeeds, assigns the generated number, and touches no products and no
order items. -/
theorem orderSave_fresh_ok (db : DB) (o : Order) (uuidHex : String)
    (h0 : o.order_number = "")
    (hfresh : ∀ e ∈ db.orders, ¬ e.order_number = generate_order_number uuidHex) :
    ∃ db', orderSave db o uuidHex
        = Except.ok ({ o with order_number := generate_order_number uuidHex }, db')
      ∧ db'.products = db.products ∧ db'.order_items = db.order_items := by
  unfold orderSave superSave
  rw [if_pos (show (o.order_number == "") = true by rw [h0]; rfl)]
  set o2 : Order := { o with order_number := generate_order_number uuidHex } with ho2
  have hcol : ¬ ((db.orders.any fun e => e.order_number == o2.order_number && e.id != o2.id)
      = true) := by
    rw [List.any_eq_true]
    rintro ⟨e, he, hbe⟩
    have hparts := (Bool.and_eq_true _ _).mp hbe
    have hnum : e.order_number = o2.order_number := by simpa using hparts.1
    exact hfresh e he (by simpa [ho2] using hnum)
  rw [if_neg hcol]
  by_cases hupd : (db.orders.any fun e => e.id == o2.id) = true
  · rw [if_pos hupd]
    exact ⟨_, rfl, rfl, rfl⟩
  · rw [if_neg hupd]
    exact ⟨_, rfl, rfl, rfl⟩

/-- C10: order placement never consults `is_active`.  Whenever every
requested item references an existing product with sufficient stock — with
no condition whatsoever on the products' `is_active` flags — the placement
succeeds and each referenced product's stock is decremented by the
requested quantity. -/
theorem C10_placement_ignores_is_active (db : DB) (u : Nat) (a : String)
    (n : Option String) (items : List ItemReq) (uuidHex : String)
    (hne : items ≠ []) (hq : ∀ r ∈ items, 1 ≤ r.quantity)
    (hnd : (items.map (·.product_id)).Nodup)
    (hex : ∀ r ∈ items, ∃ p, findProduct db r.product_id = some p
        ∧ r.quantity ≤ p.stock_quantity)
    (hfresh : ∀ e ∈ db.orders, ¬ e.order_number = generate_order_number uuidHex) :
    (∃ o, (placeOrder db u a n items uuidHex).1 = Except.ok o) ∧
    ∀ r ∈ items, ∀ p, findProduct db r.product_id = some p →
      findProduct (placeOrder db u a n items uuidHex).2 r.product_id
        = some { p with stock_quantity := p.stock_quantity - r.quantity } := by
  have hv : validOrderItems items = true := by
    unfold validOrderItems
    rw [Bool.and_eq_true]
    constructor
    · cases items with
      | nil => exact absurd rfl hne
      | cons x xs => rfl
    · rw [List.all_eq_true]
      intro r hr
      exact decide_eq_true (hq r hr)
  obtain ⟨db1, heq, hp, hi⟩ := orderSave_fresh_ok db (newOrderShell (nextOrderId db) u a n)
    uuidHex rfl hfresh
  unfold placeOrder
  rw [if_neg (by simp [hv])]
  rw [heq]
  dsimp only
  obtain ⟨hok, hdec⟩ := placeOrder_loop_effect db db1 _ items hp hnd hex
  cases hc : createItems ({ newOrderShell (nextOrderId db) u a n with
      order_number := generate_order_number uuidHex } : Order).id db1 items with
  | mk res db2 =>
    rw [hc] at hok hdec
    dsimp only at hok hdec
    subst hok
    dsimp only
    refine ⟨⟨_, rfl⟩, ?_⟩
    intro r hr p hp2
    rw [findProduct_calculate_total]
    exact hdec r hr p hp2

theorem C10_placement_ignores_is_active_witness :
    (findProduct dbInactive 1).map Product.is_active = some false ∧
    (∃ o, (placeOrder dbInactive 1 "addr" none [⟨1, 2⟩]
        "0123456789abcdef0123456789abcdef").1 = Except.ok o) ∧
    (findProduct (placeOrder dbInactive 1 "addr" none [⟨1, 2⟩]
        "0123456789abcdef0123456789abcdef").2 1).map Product.stock_quantity = some 8 := by
  have h := C10_placement_ignores_is_active dbInactive 1 "addr" none [⟨1, 2⟩]
    "0123456789abcdef0123456789abcdef" (by decide) (by decide) (by decide)
    (fun r hr => by
      rcases List.mem_singleton.mp hr with rfl
      exact ⟨prodRetired, rfl, by decide⟩)
    (fun e he => absurd he (List.not_mem_nil e))
  refine ⟨by decide, h.1, ?_⟩
  have hd := h.2 ⟨1, 2⟩ (List.mem_singleton.mpr rfl) prodRetired rfl
  rw [hd]
  decide

/-- No catalog product carries a weight attribute, so the weight
generator of `calculate_shipping` always sums an empty sequence. -/
theorem total_weight_eq_zero (db : DB) (oid : Nat) : total_weight db oid = 0 := by
  unfold total_weight
  rw [List.filterMap_eq_nil_iff.mpr]
  · rfl
  · intro it hit
    cases findProduct db it.product_id <;> simp [productWeight]

/-- C6 counterexample: `zoneZeroThreshold` has a free-shipping threshold
(0.00), and the subtotal 10.00 is at or above it, yet the computation
returns the 25.00 base rate rather than 0.00 — `Decimal('0.00')` is falsy
in Python, so a zero threshold never grants free shipping. -/
theorem C6_zero_threshold_not_free :
    zoneZeroThreshold.free_shipping_threshold = some 0 ∧
    (0 : ℚ) ≤ 10 ∧
    calculate_shipping (some zoneZeroThreshold) 10 (total_weight dbTwoProducts 1) = some 25 ∧
    some (25 : ℚ) ≠ some (0 : ℚ) := by
  refine ⟨rfl, by norm_num, ?_, by norm_num⟩
  rw [total_weight_eq_zero]
  rfl

/-- C6 (amended): the shipping computation returns 0.00 with no zone;
returns 0.00 when the zone's free-shipping threshold is set, nonzero, and
at most the subtotal; otherwise returns the base rate exactly — the weight
term is always zero because no product carries a weight attribute (a zero
threshold falls into the base-rate case).  The preview endpoint realises
the base-25.00/threshold-500.00 scenario: subtotal 600.00 is free,
subtotal 300.00 costs 25.00. -/
theorem C6_shipping_computation (db : DB) (oid : Nat) (z : ShippingZone) (sub : ℚ) :
    total_weight db oid = 0 ∧
    calculate_shipping none sub (total_weight db oid) = some 0 ∧
    (∀ t, z.free_shipping_threshold = some t → t ≠ 0 → t ≤ sub →
      calculate_shipping (some z) sub (total_weight db oid) = some 0) ∧
    ((∀ t, z.free_shipping_threshold = some t → t = 0 ∨ ¬ t ≤ sub) →
      calculate_shipping (some z) sub (total_weight db oid) = some z.base_rate) ∧
    calculate_shipping_preview [zoneStandard] (some 1) 600 = PreviewResp.free ∧
    calculate_shipping_preview [zoneStandard] (some 1) 300 = PreviewResp.cost 25 := by
  refine ⟨total_weight_eq_zero db oid, ?_, ?_, ?_, ?_, ?_⟩
  · rfl
  · intro t ht hnz hle
    unfold calculate_shipping
    dsimp only
    rw [ht]
    dsimp only
    rw [if_pos (by simp [hnz, hle])]
  · intro hnone
    unfold calculate_shipping
    dsimp only
    cases ht : z.free_shipping_threshold with
    | none =>
      dsimp only
      rw [if_neg (by decide)]
      rw [if_neg (by rw [total_weight_eq_zero]; norm_num)]
    | some t =>
      dsimp only
      rcases hnone t ht with h0 | hgt
      · rw [if_neg (by simp [h0])]
        rw [if_neg (by rw [total_weight_eq_zero]; norm_num)]
      · rw [if_neg (by simp [hgt])]
        rw [if_neg (by rw [total_weight_eq_zero]; norm_num)]
  · unfold calculate_shipping_preview
    dsimp only
    rw [if_neg (by decide)]
    rw [show ([zoneStandard].find? (fun z => z.id == 1)) = some zoneStandard from rfl]
    dsimp only [zoneStandard]
    rw [if_pos (by norm_num)]
  · unfold calculate_shipping_preview
    dsimp only
    rw [if_neg (by decide)]
    rw [show ([zoneStandard].find? (fun z => z.id == 1)) = some zoneStandard from rfl]
    dsimp only [zoneStandard]
    rw [if_neg (by norm_num)]

theorem C6_shipping_witness :
    total_weight dbTwoProducts 1 = 0 ∧
    calculate_shipping (some zoneStandard) 600 (total_weight dbTwoProducts 1) = some 0 ∧
    calculate_shipping (some zoneStandard) 300 (total_weight dbTwoProducts 1) = some 25 := by
  have h6 := C6_shipping_computation dbTwoProducts 1 zoneStandard 600
  have h3 := C6_shipping_computation dbTwoProducts 1 zoneStandard 300
  refine ⟨h6.1, h6.2.2.1 500 rfl (by norm_num) (by norm_num), ?_⟩
  have := h3.2.2.2.1 (fun t ht => by
    injection ht with ht2
    right
    rw [← ht2]
    norm_num)
  exact this

theorem hexDigitsLower_toUpper (c : Char) (h : c ∈ hexDigitsLower) :
    Char.toUpper c ∈ hexDigitsUpper := by
  have hall : ∀ x ∈ hexDigitsLower, Char.toUpper x ∈ hexDigitsUpper := by decide
  exact hall c h

/-- Any `uuid4().hex` value yields an order number of the documented
`ORD-` + 8 uppercase hex shape. -/
theorem generate_order_number_shape (s : String) (h : isUuidHex s = true) :
    isOrderNumberShape (generate_order_number s) = true := by
  unfold isUuidHex at h
  obtain ⟨hlen, hall⟩ := (Bool.and_eq_true _ _).mp h
  have hlen' : s.toList.length = 32 := by simpa using hlen
  have hall' : ∀ c ∈ s.toList, c ∈ hexDigitsLower := by
    intro c hc
    exact List.mem_of_elem_eq_true (List.all_eq_true.mp hall c hc)
  unfold generate_order_number isOrderNumberShape
  have htl : ("ORD-" ++ String.mk ((s.toList.take 8).map Char.toUpper)).toList
      = 'O' :: 'R' :: 'D' :: '-' :: (s.toList.take 8).map Char.toUpper := by
    simp [String.toList, String.data_append]
  rw [htl]
  rw [Bool.and_eq_true, Bool.and_eq_true]
  have hlt : ((s.toList.take 8).map Char.toUpper).length = 8 := by
    rw [List.length_map, List.length_take, hlen']
    decide
  refine ⟨⟨rfl, ?_⟩, ?_⟩
  · show ((((s.toList.take 8).map Char.toUpper)).length == 8) = true
    rw [hlt]
    rfl
  · show (((s.toList.take 8).map Char.toUpper).all fun c => hexDigitsUpper.contains c) = true
    rw [List.all_eq_true]
    intro c hc
    obtain ⟨d, hd, rfl⟩ := List.mem_map.mp hc
    exact List.elem_eq_true_of_mem
      (hexDigitsLower_toUpper d (hall' d (List.take_subset _ _ hd)))

/-- C7 (amended): for any `uuid4().hex` input, a first save assigns a
number of the `ORD-` + 8 uppercase hex shape that differs from every
other existing order's number whenever the save succeeds; a later save
never changes an assigned number; and a save whose generated number
collides with a different existing order fails outright with the
uniqueness violation — nothing retries it. -/
theorem C7_order_number_properties (db : DB) (o : Order) (uuidHex : String)
    (hhex : isUuidHex uuidHex = true) :
    (o.order_number = "" → ∀ o' db', orderSave db o uuidHex = Except.ok (o', db') →
      isOrderNumberShape o'.order_number = true ∧
      ∀ e ∈ db.orders, e.id ≠ o'.id → e.order_number ≠ o'.order_number) ∧
    (o.order_number ≠ "" → ∀ o' db', orderSave db o uuidHex = Except.ok (o', db') →
      o'.order_number = o.order_number) ∧
    (o.order_number = "" →
      (∃ e ∈ db.orders, e.order_number = generate_order_number uuidHex ∧ e.id ≠ o.id) →
      orderSave db o uuidHex = Except.error ()) := by
  refine ⟨?_, ?_, ?_⟩
  · intro h0 o' db' hok
    unfold orderSave superSave at hok
    rw [if_pos (show (o.order_number == "") = true by rw [h0]; rfl)] at hok
    set o2 : Order := { o with order_number := generate_order_number uuidHex } with ho2
    by_cases hcol : (db.orders.any fun e =>
        e.order_number == o2.order_number && e.id != o2.id) = true
    · rw [if_pos hcol] at hok
      cases hok
    · rw [if_neg hcol] at hok
      have huniq : ∀ e ∈ db.orders, e.id ≠ o2.id → e.order_number ≠ o2.order_number := by
        intro e he hid hnum
        refine hcol ?_
        rw [List.any_eq_true]
        exact ⟨e, he, by simp [hnum, hid]⟩
      by_cases hupd : (db.orders.any fun e => e.id == o2.id) = true
      · rw [if_pos hupd] at hok
        injection hok with h1
        injection h1 with h2 h3
        subst h2
        exact ⟨generate_order_number_shape uuidHex hhex, huniq⟩
      · rw [if_neg hupd] at hok
        injection hok with h1
        injection h1 with h2 h3
        subst h2
        exact ⟨generate_order_number_shape uuidHex hhex, huniq⟩
  · intro h0 o' db' hok
    unfold orderSave superSave at hok
    rw [if_neg (show ¬ ((o.order_number == "") = true) by simp [h0])] at hok
    by_cases hcol : (db.orders.any fun e =>
        e.order_number == o.order_number && e.id != o.id) = true
    · rw [if_pos hcol] at hok
      cases hok
    · rw [if_neg hcol] at hok
      by_cases hupd : (db.orders.any fun e => e.id == o.id) = true
      · rw [if_pos hupd] at hok
        injection hok with h1
        injection h1 with h2 h3
        subst h2
        rfl
      · rw [if_neg hupd] at hok
        injection hok with h1
        injection h1 with h2 h3
        subst h2
        rfl
  · intro h0 hex2
    obtain ⟨e, he, hnum, hid⟩ := hex2
    unfold orderSave superSave
    rw [if_pos (show (o.order_number == "") = true by rw [h0]; rfl)]
    rw [if_pos ?_]
    rw [List.any_eq_true]
    exact ⟨e, he, by simp [hnum, hid]⟩

/-- C7 counterexample: when the fresh uuid's first 8 hex digits collide
with an existing order's number, the save raises the uniqueness violation
and fails — the claimed retry does not exist in `Order.save`. -/
theorem C7_collision_is_fatal :
    generate_order_number "deadbeef00000000000000000000dead" = "ORD-DEADBEEF" ∧
    ordSeedCollision.order_number = "ORD-DEADBEEF" ∧
    orderSave dbSeeded ordShellNew "deadbeef00000000000000000000dead"
      = Except.error () := ⟨rfl, rfl, rfl⟩

theorem C7_order_number_witness :
    isUuidHex "0123456789abcdef0123456789abcdef" = true ∧
    isOrderNumberShape ordShellAssigned.order_number = true := by
  refine ⟨by decide, ?_⟩
  have h := C7_order_number_properties dbEmpty ordShellNew
    "0123456789abcdef0123456789abcdef" (by decide)
  have hres : orderSave dbEmpty ordShellNew "0123456789abcdef0123456789abcdef"
      = Except.ok (ordShellAssigned, { dbEmpty with orders := [ordShellAssigned] }) := rfl
  exact (h.1 rfl _ _ hres).1

theorem superSave_ok_fst (db : DB) (o2 : Order) :
    ∀ o' db', superSave db o2 = Except.ok (o', db') → o' = o2 := by
  intro o' db' h
  unfold superSave at h
  by_cases hcol : (db.orders.any fun e =>
      e.order_number == o2.order_number && e.id != o2.id) = true
  · rw [if_pos hcol] at h
    cases h
  · rw [if_neg hcol] at h
    by_cases hupd : (db.orders.any fun e => e.id == o2.id) = true
    · rw [if_pos hupd] at h
      injection h with h1
      injection h1 with h2 h3
      exact h2.symm
    · rw [if_neg hupd] at h
      injection h with h1
      injection h1 with h2 h3
      exact h2.symm

/-- C8 (amended): the order-creation serializer exposes no shipping-zone
field, and placement never invokes the shipping calculator: every
successfully placed order has a null shipping zone and the default
shipping cost 0.00, whatever the request contained. -/
theorem C8_placement_has_no_shipping_zone (db : DB) (u : Nat) (a : String)
    (n : Option String) (items : List ItemReq) (uuidHex : String) (o : Order)
    (h : (placeOrder db u a n items uuidHex).1 = Except.ok o) :
    o.shipping_zone = none ∧ o.shipping_cost = 0
      ∧ "shipping_zone" ∉ orderCreateSerializerFields := by
  unfold placeOrder at h
  by_cases hv : validOrderItems items = true
  · rw [if_neg (by simp [hv])] at h
    cases hs : orderSave db (newOrderShell (nextOrderId db) u a n) uuidHex with
    | error e =>
      rw [hs] at h
      simp at h
    | ok pair =>
      obtain ⟨o1, db1⟩ := pair
      rw [hs] at h
      dsimp only at h
      have ho1 : o1 = { newOrderShell (nextOrderId db) u a n with
          order_number := generate_order_number uuidHex } := superSave_ok_fst db _ o1 db1 hs
      cases hc : createItems o1.id db1 items with
      | mk res db2 =>
        rw [hc] at h
        cases res with
        | error e => simp at h
        | ok u' =>
          dsimp only at h
          injection h with h1
          subst h1
          subst ho1
          exact ⟨rfl, rfl, by decide⟩
  · rw [if_pos (by simpa using hv)] at h
    simp at h

/-- C8 counterexample: the serializer's field list has no shipping-zone
entry, and a successful placement (subtotal 10.00) stores shipping cost
0.00 with a null zone, although the shipping computation for
`zoneStandard` at any below-threshold subtotal yields the 25.00 base
rate — so the stored cost is not computed from any requested zone. -/
theorem C8_no_zone_counterexample :
    ((placeOrder dbTwoProducts 1 "addr" none [⟨1, 2⟩]
        "cafebabecafebabecafebabecafebabe").1.toOption.map Order.shipping_cost)
      = some 0 ∧
    ((placeOrder dbTwoProducts 1 "addr" none [⟨1, 2⟩]
        "cafebabecafebabecafebabecafebabe").1.toOption.map Order.shipping_zone)
      = some none ∧
    calculate_shipping (some zoneStandard) 10 0 = some 25 ∧
    (25 : ℚ) ≠ 0 ∧
    "shipping_zone" ∉ orderCreateSerializerFields := by
  exact ⟨rfl, rfl, rfl, by norm_num, by decide⟩

theorem C8_placement_witness :
    ((placeOrder dbTwoProducts 1 "addr" none [⟨1, 2⟩]
        "cafebabecafebabecafebabecafebabe").1.toOption.map Order.shipping_zone)
      = some none ∧
    ((placeOrder dbTwoProducts 1 "addr" none [⟨1, 2⟩]
        "cafebabecafebabecafebabecafebabe").1.toOption.map Order.shipping_cost)
      = some 0 ∧
    "shipping_zone" ∉ orderCreateSerializerFields := by
  have hok : (placeOrder dbTwoProducts 1 "addr" none [⟨1, 2⟩]
      "cafebabecafebabecafebabecafebabe").1.isOk = true := rfl
  obtain ⟨o, ho⟩ : ∃ o, (placeOrder dbTwoProducts 1 "addr" none [⟨1, 2⟩]
      "cafebabecafebabecafebabecafebabe").1 = Except.ok o := by
    cases hres : (placeOrder dbTwoProducts 1 "addr" none [⟨1, 2⟩]
        "cafebabecafebabecafebabecafebabe").1 with
    | error e =>
      rw [hres] at hok
      simp [Except.isOk, Except.toBool] at hok
    | ok a => exact ⟨a, rfl⟩
  have h8 := C8_placement_has_no_shipping_zone dbTwoProducts 1 "addr" none [⟨1, 2⟩]
    "cafebabecafebabecafebabecafebabe" o ho
  rw [ho]
  refine ⟨?_, ?_, by decide⟩
  · show some o.shipping_zone = some none
    rw [h8.1]
  · show some o.shipping_cost = some 0
    rw [h8.2.1]

end OIMS

